import Mathlib

/-!
Task list manager (src/js/app.js)

A shallow embedding of the to-do list script: the task record, the in-memory
collection, the three mutating handlers (add, toggle, delete), the derived
view (rows, empty-state indicator, pending count) and the start-up load.

Modelling conventions.
* Task ids are the integers returned by Date.now(); strict equality on them is
  integer equality.
* Strings are sequences of Unicode scalar values; the white space removed by
  String.prototype.trim is the ECMAScript WhiteSpace and LineTerminator set.
* The write to local storage is recorded as the snapshot handed to
  JSON.stringify; the log of snapshots (newest first) stands for the store.
* setTimeout callbacks are kept in a list of pending timers and run by an
  explicit firing step.
* An element is displayed when its class list does not hold the class hidden.
-/

namespace TodoApp

/-! ## Data model -/

/-- Task record, as built in handleAddTask (app.js lines 127 to 131). -/
structure Task where
  id : Int
  text : String
  completed : Bool
deriving DecidableEq, Repr

/-- One rendered list row (renderTask): the data attribute carrying the task id,
the text span, the checkbox state, and whether the exit animation class is set. -/
structure Row where
  taskId : Int
  text : String
  checked : Bool
  exiting : Bool
deriving DecidableEq, Repr

/-- Deferred callbacks scheduled with setTimeout. -/
inductive Timer where
  | clearInputCue
  | removeTask (taskId : Int)
deriving DecidableEq, Repr

/-- Program state: the tasks variable, the storage write log, and the parts of
the page the script reads or writes. -/
structure State where
  tasks : List Task
  saved : List (List Task)
  inputValue : String
  inputClasses : List String
  inputFocused : Bool
  emptyStateClasses : List String
  taskListClasses : List String
  rows : List Row
  taskCountElement : Option String
  timers : List Timer
deriving DecidableEq, Repr

/-! ## Platform helpers -/

/-- ECMAScript WhiteSpace and LineTerminator code points, the set stripped by
String.prototype.trim. -/
def isJsWhiteSpace (c : Char) : Bool :=
  let n := c.toNat
  n == 0x09 || n == 0x0A || n == 0x0B || n == 0x0C || n == 0x0D || n == 0x20 ||
  n == 0xA0 || n == 0x1680 || (0x2000 ≤ n && n ≤ 0x200A) || n == 0x2028 ||
  n == 0x2029 || n == 0x202F || n == 0x205F || n == 0x3000 || n == 0xFEFF

/-- Strip leading and trailing white space from a character list. -/
def trimChars (cs : List Char) : List Char :=
  ((cs.dropWhile isJsWhiteSpace).reverse.dropWhile isJsWhiteSpace).reverse

/-- String.prototype.trim. -/
def jsTrim (s : String) : String :=
  String.mk (trimChars s.data)

/-- DOMTokenList.add for one token. -/
def classListAdd (cls : String) (cl : List String) : List String :=
  if cls ∈ cl then cl else cl ++ [cls]

/-- DOMTokenList.remove for one token. -/
def classListRemove (cls : String) (cl : List String) : List String :=
  cl.filter (fun c => c ≠ cls)

/-- An element is displayed when the class hidden is not on it. -/
def shown (cl : List String) : Prop :=
  "hidden" ∉ cl

instance (cl : List String) : Decidable (shown cl) := by
  unfold shown
  infer_instance

/-! ## Core functions of app.js -/

/-- Function saveTasks (lines 19 to 21): write the current collection to storage. -/
def saveTasks (s : State) : State :=
  { s with saved := s.tasks :: s.saved }

/-- Number of tasks not completed (line 27). -/
def pendingTasks (tasks : List Task) : Nat :=
  (tasks.filter (fun task => !task.completed)).length

/-- Text assigned at line 29. -/
def taskCountText (tasks : List Task) : String :=
  if pendingTasks tasks = 1 then "1 task remaining"
  else Nat.repr (pendingTasks tasks) ++ " tasks remaining"

/-- Function updateTaskCount (lines 26 to 31); the count element may be missing. -/
def updateTaskCount (s : State) : State :=
  match s.taskCountElement with
  | some _ => { s with taskCountElement := some (taskCountText s.tasks) }
  | none => s

/-- Function updateEmptyState (lines 36 to 44). -/
def updateEmptyState (s : State) : State :=
  if s.tasks.length = 0 then
    { s with
      emptyStateClasses := classListRemove "hidden" s.emptyStateClasses
      taskListClasses := classListAdd "hidden" s.taskListClasses }
  else
    { s with
      emptyStateClasses := classListAdd "hidden" s.emptyStateClasses
      taskListClasses := classListRemove "hidden" s.taskListClasses }

/-- Function renderTask (lines 50 to 90): the row built for one task. The
struck-through and dimmed styling follows the checkbox state; the entry
animation class, which nothing reads, is left out. -/
def renderTask (task : Task) : Row :=
  { taskId := task.id, text := task.text, checked := task.completed, exiting := false }

/-- Function renderTaskList (lines 96 to 107): rebuild all rows from the
collection, then refresh the empty-state indicator and the pending count. -/
def renderTaskList (s : State) : State :=
  updateTaskCount (updateEmptyState { s with rows := s.tasks.map renderTask })

/-- Function handleAddTask (lines 113 to 138); now is the reading of Date.now(). -/
def handleAddTask (now : Int) (s : State) : State :=
  let taskText := jsTrim s.inputValue
  if taskText = "" then
    { s with
      inputClasses := classListAdd "animate-shake" (classListAdd "border-red-500" s.inputClasses)
      inputFocused := true
      timers := s.timers ++ [Timer.clearInputCue] }
  else
    let newTask : Task := { id := now, text := taskText, completed := false }
    let s1 := renderTaskList (saveTasks { s with tasks := newTask :: s.tasks })
    { s1 with inputValue := "", inputFocused := true }

/-- Function toggleTaskCompletion (lines 144 to 150). -/
def toggleTaskCompletion (taskId : Int) (s : State) : State :=
  renderTaskList (saveTasks { s with
    tasks := s.tasks.map (fun task =>
      if task.id = taskId then { task with completed := !task.completed } else task) })

/-- The mutation shared by the deferred callback (lines 162 to 164) and the
fallback branch (lines 168 to 170) of deleteTask. -/
def removeTask (taskId : Int) (s : State) : State :=
  renderTaskList (saveTasks { s with
    tasks := s.tasks.filter (fun task => task.id ≠ taskId) })

/-- Add the exit animation class to the first row carrying the id (querySelector
returns the first match). -/
def markExiting (taskId : Int) : List Row → List Row
  | [] => []
  | r :: rs =>
    if r.taskId = taskId then { r with exiting := true } :: rs
    else r :: markExiting taskId rs

/-- Function deleteTask (lines 156 to 172): when the row is on the page the
removal is scheduled, otherwise it is done at once. -/
def deleteTask (taskId : Int) (s : State) : State :=
  if s.rows.any (fun r => r.taskId = taskId) then
    { s with
      rows := markExiting taskId s.rows
      timers := s.timers ++ [Timer.removeTask taskId] }
  else
    removeTask taskId s

/-- Body of a setTimeout callback. -/
def runTimer (t : Timer) (s : State) : State :=
  match t with
  | Timer.clearInputCue =>
    { s with
      inputClasses := classListRemove "animate-shake" (classListRemove "border-red-500" s.inputClasses) }
  | Timer.removeTask taskId => removeTask taskId s

/-- The k-th pending timer elapses: it leaves the pending list and its body runs. -/
def fireTimer (k : Nat) (s : State) : State :=
  match s.timers.get? k with
  | some t => runTimer t { s with timers := s.timers.eraseIdx k }
  | none => s

/-! ## Events -/

/-- What can happen to the page: a form submission (with the clock reading and
the text then in the input box), a checkbox change, a click on a delete button,
and the elapsing of a pending timer. -/
inductive Event where
  | submit (now : Int) (input : String)
  | toggle (taskId : Int)
  | deleteClick (taskId : Int)
  | timeout (k : Nat)
deriving DecidableEq, Repr

/-- One event handled to completion. -/
def step (s : State) : Event → State
  | Event.submit now input => handleAddTask now { s with inputValue := input }
  | Event.toggle taskId => toggleTaskCompletion taskId s
  | Event.deleteClick taskId => deleteTask taskId s
  | Event.timeout k => fireTimer k s

/-- A sequence of events handled one after another. -/
def run (s : State) (evs : List Event) : State :=
  evs.foldl step s

/-- Clock readings taken by the submissions of an event sequence; a submission
with blank text returns before Date.now() is called. -/
def clockReadings : List Event → List Int
  | [] => []
  | Event.submit now input :: evs =>
    if jsTrim input = "" then clockReadings evs else now :: clockReadings evs
  | _ :: evs => clockReadings evs

/-- A sample page after the initial render with nothing stored: no tasks, empty
input, count element present. -/
def emptyPage : State :=
  renderTaskList
    { tasks := [], saved := [], inputValue := "", inputClasses := [], inputFocused := false,
      emptyStateClasses := ["hidden"], taskListClasses := [], rows := [],
      taskCountElement := some "", timers := [] }

/-! ## Start-up load (line 12) and initial render (line 180) -/

/-- Faults a script statement can raise. -/
inductive JsFault where
  | syntaxError
  | typeError
deriving DecidableEq, Repr

/-- Numbers JSON.parse can return: a finite value, kept as the rational it
equals (both zeros are 0), or an infinity, which a literal beyond the double
range parses to. -/
inductive JNum where
  | finite (q : ℚ)
  | infinite (negative : Bool)

/-- Values JSON.parse can return. -/
inductive JVal where
  | null
  | bool (b : Bool)
  | num (n : JNum)
  | str (s : String)
  | arr (items : List JVal)
  | obj (members : List (String × JVal))

/-- ToBoolean on a parsed value, as used by the operator || at line 12. -/
def JVal.truthy : JVal → Bool
  | JVal.null => false
  | JVal.bool b => b
  | JVal.num (JNum.finite q) => q != 0
  | JVal.num (JNum.infinite _) => true
  | JVal.str s => s != ""
  | JVal.arr _ => true
  | JVal.obj _ => true

/-- What the storage key holds when the page loads. -/
inductive Stored where
  | absent
  | unparsable
  | value (v : JVal)

/-- Outcome of JSON.parse(localStorage.getItem(key)): a missing key reads as
null, whose text parses to null; text that is not JSON raises SyntaxError; any
other text gives the value it denotes. -/
def parseStored : Stored → Except JsFault JVal
  | Stored.absent => Except.ok JVal.null
  | Stored.unparsable => Except.error JsFault.syntaxError
  | Stored.value v => Except.ok v

/-- Initial value of the tasks variable (line 12): the parsed value, or the empty
array when that value is falsy. -/
def initTasks (st : Stored) : Except JsFault JVal :=
  match parseStored st with
  | Except.error e => Except.error e
  | Except.ok v => Except.ok (if v.truthy then v else JVal.arr [])

/-- Reading the property id of an array item at line 52: it raises TypeError on
null and succeeds (possibly with undefined) on every other value. -/
def JVal.isNull : JVal → Bool
  | JVal.null => true
  | _ => false

/-- The DOMContentLoaded handler down to the end of the initial render (lines 2
to 180), returning the value left in the tasks variable. Line 12 may raise;
renderTaskList then calls tasks.forEach, which is a function only when tasks is
an array, and renderTask reads task.id on each item. No statement is wrapped
in try and catch, so a fault ends the handler. -/
def onDOMContentLoaded (st : Stored) : Except JsFault JVal :=
  match initTasks st with
  | Except.error e => Except.error e
  | Except.ok (JVal.arr items) =>
    if items.any JVal.isNull then Except.error JsFault.typeError
    else Except.ok (JVal.arr items)
  | Except.ok _ => Except.error JsFault.typeError

/-- Member lookup on a parsed object. -/
def JVal.member (k : String) : JVal → Option JVal
  | JVal.obj members => (members.find? (fun kv => kv.1 == k)).map (fun kv => kv.2)
  | _ => none

/-- Shape of one stored task: an object with a numeric id, a string text and a
boolean completed. -/
def isTaskRecord (v : JVal) : Bool :=
  match v.member "id", v.member "text", v.member "completed" with
  | some (JVal.num _), some (JVal.str _), some (JVal.bool _) => true
  | _, _, _ => false

/-- Shape of a stored task list: an array of task records. -/
def isTaskList : JVal → Bool
  | JVal.arr items => items.all isTaskRecord
  | _ => false

/-! ## Basic facts about the view refresh -/

theorem updateEmptyState_tasks (s : State) : (updateEmptyState s).tasks = s.tasks := by
  unfold updateEmptyState
  split <;> rfl

theorem updateTaskCount_tasks (s : State) : (updateTaskCount s).tasks = s.tasks := by
  unfold updateTaskCount
  split <;> rfl

theorem updateEmptyState_saved (s : State) : (updateEmptyState s).saved = s.saved := by
  unfold updateEmptyState
  split <;> rfl

theorem updateTaskCount_saved (s : State) : (updateTaskCount s).saved = s.saved := by
  unfold updateTaskCount
  split <;> rfl

theorem renderTaskList_tasks (s : State) : (renderTaskList s).tasks = s.tasks := by
  simp [renderTaskList, updateTaskCount_tasks, updateEmptyState_tasks]

theorem renderTaskList_saved (s : State) : (renderTaskList s).saved = s.saved := by
  simp [renderTaskList, updateTaskCount_saved, updateEmptyState_saved]

theorem handleAddTask_tasks_of_valid (now : Int) (s : State) (h : jsTrim s.inputValue ≠ "") :
    (handleAddTask now s).tasks = ⟨now, jsTrim s.inputValue, false⟩ :: s.tasks := by
  simp [handleAddTask, h, renderTaskList_tasks, saveTasks]

theorem handleAddTask_tasks_of_blank (now : Int) (s : State) (h : jsTrim s.inputValue = "") :
    (handleAddTask now s).tasks = s.tasks := by
  simp [handleAddTask, h]

theorem toggleTaskCompletion_tasks (taskId : Int) (s : State) :
    (toggleTaskCompletion taskId s).tasks = s.tasks.map (fun task =>
      if task.id = taskId then { task with completed := !task.completed } else task) := by
  simp [toggleTaskCompletion, renderTaskList_tasks, saveTasks]

theorem removeTask_tasks (taskId : Int) (s : State) :
    (removeTask taskId s).tasks = s.tasks.filter (fun task => task.id ≠ taskId) := by
  simp [removeTask, renderTaskList_tasks, saveTasks]

/-! ## White space and trimming -/

theorem dropWhile_eq_nil_of_all (p : Char → Bool) (cs : List Char)
    (h : ∀ c ∈ cs, p c = true) : cs.dropWhile p = [] := by
  induction cs with
  | nil => rfl
  | cons c cs ih =>
    have hc : p c = true := h c (List.mem_cons_self c cs)
    simp only [List.dropWhile, hc]
    exact ih (fun d hd => h d (List.mem_cons_of_mem c hd))

theorem jsTrim_blank (s : String) (h : ∀ c ∈ s.data, isJsWhiteSpace c = true) :
    jsTrim s = "" := by
  unfold jsTrim trimChars
  rw [dropWhile_eq_nil_of_all isJsWhiteSpace s.data h]
  rfl

/-- The trimmed form is empty exactly for inputs made of white space only (the
empty input included). -/
theorem jsTrim_eq_empty_iff (s : String) :
    jsTrim s = "" ↔ ∀ c ∈ s.data, isJsWhiteSpace c = true := by
  constructor
  · intro h
    have hd : trimChars s.data = [] := congrArg String.data h
    unfold trimChars at hd
    rw [List.reverse_eq_nil_iff, List.dropWhile_eq_nil_iff] at hd
    have hall : ∀ x ∈ s.data.dropWhile isJsWhiteSpace, isJsWhiteSpace x = true :=
      fun x hx => hd x (List.mem_reverse.mpr hx)
    have hnil : s.data.dropWhile isJsWhiteSpace = [] := by
      cases hD : s.data.dropWhile isJsWhiteSpace with
      | nil => rfl
      | cons a t =>
        have hhead := List.head?_dropWhile_not isJsWhiteSpace s.data
        rw [hD] at hhead hall
        simp only [List.head?_cons] at hhead
        have := hall a (List.mem_cons_self a t)
        rw [hhead] at this
        cases this
    exact List.dropWhile_eq_nil_iff.mp hnil
  · exact jsTrim_blank s

theorem run_submits_tasks (adds : List (Int × String)) (s0 : State)
    (hadds : ∀ a ∈ adds, jsTrim a.2 ≠ "") :
    (run s0 (adds.map (fun a => Event.submit a.1 a.2))).tasks
      = adds.reverse.map (fun a => (⟨a.1, jsTrim a.2, false⟩ : Task)) ++ s0.tasks := by
  induction adds generalizing s0 with
  | nil => simp [run]
  | cons a adds ih =>
    have ha : jsTrim a.2 ≠ "" := hadds a (List.mem_cons_self a adds)
    have hrest : ∀ b ∈ adds, jsTrim b.2 ≠ "" := fun b hb => hadds b (List.mem_cons_of_mem a hb)
    have hstep : (step s0 (Event.submit a.1 a.2)).tasks = ⟨a.1, jsTrim a.2, false⟩ :: s0.tasks := by
      have := handleAddTask_tasks_of_valid a.1 { s0 with inputValue := a.2 } ha
      simpa [step] using this
    have := ih (step s0 (Event.submit a.1 a.2)) hrest
    simp only [List.map_cons, run, List.foldl_cons] at this ⊢
    rw [this, hstep]
    simp

/-! ## Claims -/

/-- C1: a submission whose trimmed text is non-empty puts the task made of the
clock reading, the trimmed text and completed = false in front of the unchanged
old collection, so the length grows by one; and any number of such submissions
from an empty collection leave as many tasks as submissions, newest first. -/
theorem handleAddTask_valid_prepends (st : State) (t : Int) (s0 : State)
    (adds : List (Int × String))
    (hvalid : jsTrim st.inputValue ≠ "")
    (hempty : s0.tasks = [])
    (hadds : ∀ a ∈ adds, jsTrim a.2 ≠ "") :
    (handleAddTask t st).tasks = ⟨t, jsTrim st.inputValue, false⟩ :: st.tasks
    ∧ (handleAddTask t st).tasks.length = st.tasks.length + 1
    ∧ (run s0 (adds.map (fun a => Event.submit a.1 a.2))).tasks
        = adds.reverse.map (fun a => (⟨a.1, jsTrim a.2, false⟩ : Task))
    ∧ (run s0 (adds.map (fun a => Event.submit a.1 a.2))).tasks.length = adds.length
    ∧ (run s0 (adds.map (fun a => Event.submit a.1 a.2))).tasks.head?
        = adds.getLast?.map (fun a => (⟨a.1, jsTrim a.2, false⟩ : Task)) := by
  have h1 := handleAddTask_tasks_of_valid t st hvalid
  have h2 := run_submits_tasks adds s0 hadds
  rw [hempty, List.append_nil] at h2
  refine ⟨h1, ?_, h2, ?_, ?_⟩
  · rw [h1]; simp
  · rw [h2]; simp
  · rw [h2, List.map_reverse, List.head?_reverse, List.getLast?_map]

/-- Witness for C1: one submission on a page holding a task, and the scenario
add A then add B from the empty page. -/
theorem handleAddTask_valid_prepends_witness :
    (handleAddTask 9 { emptyPage with tasks := [⟨3, "old", true⟩], inputValue := "  Buy milk " }).tasks
      = [⟨9, "Buy milk", false⟩, ⟨3, "old", true⟩]
    ∧ (run emptyPage [Event.submit 1 "A", Event.submit 2 "B"]).tasks
      = [⟨2, "B", false⟩, ⟨1, "A", false⟩] :=
  have h := handleAddTask_valid_prepends
    { emptyPage with tasks := [⟨3, "old", true⟩], inputValue := "  Buy milk " } 9 emptyPage
    [(1, "A"), (2, "B")] (by decide) (by decide) (by decide)
  ⟨h.1, h.2.2.1⟩

/-- C2: a submission whose text is empty or all white space has an empty trimmed
form and is rejected: the collection is the same list as before, nothing is
written to storage, and the rendered rows and pending count are left alone. -/
theorem handleAddTask_blank_rejected (st : State) (t : Int)
    (hblank : ∀ c ∈ st.inputValue.data, isJsWhiteSpace c = true) :
    jsTrim st.inputValue = ""
    ∧ (handleAddTask t st).tasks = st.tasks
    ∧ (handleAddTask t st).tasks.length = st.tasks.length
    ∧ (handleAddTask t st).saved = st.saved
    ∧ (handleAddTask t st).rows = st.rows
    ∧ (handleAddTask t st).taskCountElement = st.taskCountElement := by
  have h := jsTrim_blank st.inputValue hblank
  simp [handleAddTask, h]

/-- Witness for C2: a tab and two spaces submitted on a page holding one task. -/
theorem handleAddTask_blank_rejected_witness :
    jsTrim "\t  " = ""
    ∧ (handleAddTask 9 { emptyPage with tasks := [⟨3, "old", true⟩], inputValue := "\t  " }).tasks
      = [⟨3, "old", true⟩]
    ∧ (handleAddTask 9 { emptyPage with tasks := [⟨3, "old", true⟩], inputValue := "\t  " }).saved
      = [] :=
  have h := handleAddTask_blank_rejected
    { emptyPage with tasks := [⟨3, "old", true⟩], inputValue := "\t  " } 9 (by decide)
  ⟨h.1, h.2.1, h.2.2.2.1⟩

/-- Deleting shortens the collection by the number of tasks carrying the id. -/
theorem removeTask_length_add_count (i : Int) (s : State) :
    (removeTask i s).tasks.length + s.tasks.countP (fun task => task.id = i)
      = s.tasks.length := by
  rw [removeTask_tasks]
  induction s.tasks with
  | nil => rfl
  | cons a l ih =>
    by_cases h : a.id = i
    · simp [List.filter_cons, List.countP_cons, h] at ih ⊢
      omega
    · simp [List.filter_cons, List.countP_cons, h] at ih ⊢
      omega

theorem countP_id_le_one (i : Int) (l : List Task) (h : (l.map Task.id).Nodup) :
    l.countP (fun task => task.id = i) ≤ 1 := by
  induction l with
  | nil => simp
  | cons a l ih =>
    rw [List.map_cons, List.nodup_cons] at h
    by_cases ha : a.id = i
    · have hnone : l.countP (fun task => task.id = i) = 0 := by
        rw [List.countP_eq_zero]
        intro b hb hbi
        apply h.1
        have hbi2 : b.id = i := by simpa using hbi
        rw [ha, ← hbi2]
        exact List.mem_map_of_mem Task.id hb
      simp [List.countP_cons, ha, hnone]
    · have := ih h.2
      simpa [List.countP_cons, ha] using this

/-- C3, amended: when the ids of the collection are pairwise distinct and some
task has id i, the filter step of deleteTask removes exactly one entry, so the
length drops by one; when no task has id i the length is unchanged. -/
theorem removeTask_length (s : State) (i : Int) :
    ((s.tasks.map Task.id).Nodup → (∃ task ∈ s.tasks, task.id = i) →
        (removeTask i s).tasks.length = s.tasks.length - 1 ∧ 1 ≤ s.tasks.length)
    ∧ ((∀ task ∈ s.tasks, task.id ≠ i) →
        (removeTask i s).tasks.length = s.tasks.length) := by
  have hlen := removeTask_length_add_count i s
  constructor
  · intro hnd hex
    have hle := countP_id_le_one i s.tasks hnd
    have hpos : 0 < s.tasks.countP (fun task => task.id = i) := by
      rw [List.countP_pos_iff]
      obtain ⟨task, hmem, hid⟩ := hex
      exact ⟨task, hmem, by simpa using hid⟩
    omega
  · intro hno
    have hzero : s.tasks.countP (fun task => task.id = i) = 0 := by
      rw [List.countP_eq_zero]
      intro b hb
      simpa using hno b hb
    omega

/-- Witness for C3, amended: the scenario add Y then delete its id, and a delete
of an id that is not there. -/
theorem removeTask_length_witness :
    ((removeTask 4 (run emptyPage [Event.submit 4 "Y"])).tasks.length
        = (run emptyPage [Event.submit 4 "Y"]).tasks.length - 1
      ∧ 1 ≤ (run emptyPage [Event.submit 4 "Y"]).tasks.length)
    ∧ (removeTask 5 (run emptyPage [Event.submit 4 "Y"])).tasks.length
        = (run emptyPage [Event.submit 4 "Y"]).tasks.length :=
  ⟨(removeTask_length (run emptyPage [Event.submit 4 "Y"]) 4).1 (by decide) (by decide),
   (removeTask_length (run emptyPage [Event.submit 4 "Y"]) 5).2 (by decide)⟩

/-- C3 as written fails: two submissions under one clock reading give two tasks
with id 7; some task has id 7, yet deleting 7 takes the length from 2 to 0, not
to 1. -/
theorem removeTask_length_counterexample :
    (∃ task ∈ (run emptyPage [Event.submit 7 "a", Event.submit 7 "b"]).tasks, task.id = 7)
    ∧ (run emptyPage [Event.submit 7 "a", Event.submit 7 "b"]).tasks.length = 2
    ∧ (removeTask 7 (run emptyPage [Event.submit 7 "a", Event.submit 7 "b"])).tasks.length = 0
    ∧ (removeTask 7 (run emptyPage [Event.submit 7 "a", Event.submit 7 "b"])).tasks.length
        ≠ (run emptyPage [Event.submit 7 "a", Event.submit 7 "b"]).tasks.length - 1 := by
  decide

/-- C9: the filter step of deleteTask keeps exactly the tasks whose id differs
from i, unchanged and in their original order; when no task has id i the
collection is the same list, and a second deletion of the same id changes
nothing. -/
theorem removeTask_keeps_rest (s : State) (i : Int) :
    (removeTask i s).tasks = s.tasks.filter (fun task => decide (task.id ≠ i))
    ∧ List.Sublist (removeTask i s).tasks s.tasks
    ∧ (∀ task, task ∈ (removeTask i s).tasks ↔ task ∈ s.tasks ∧ task.id ≠ i)
    ∧ ((∀ task ∈ s.tasks, task.id ≠ i) → (removeTask i s).tasks = s.tasks)
    ∧ (removeTask i (removeTask i s)).tasks = (removeTask i s).tasks := by
  have h := removeTask_tasks i s
  refine ⟨h, ?_, ?_, ?_, ?_⟩
  · rw [h]; exact List.filter_sublist s.tasks
  · intro task
    rw [h]; simp [List.mem_filter]
  · intro hno
    rw [h, List.filter_eq_self]
    intro a ha
    simpa using hno a ha
  · rw [removeTask_tasks i (removeTask i s), h, List.filter_filter]
    simp

/-- Witness for C9: deleting an id that is not in the collection. -/
theorem removeTask_keeps_rest_witness :
    (removeTask 5 (run emptyPage [Event.submit 1 "A", Event.submit 2 "B"])).tasks
      = (run emptyPage [Event.submit 1 "A", Event.submit 2 "B"]).tasks :=
  (removeTask_keeps_rest (run emptyPage [Event.submit 1 "A", Event.submit 2 "B"]) 5).2.2.2.1
    (by decide)

/-- C5: toggling id i keeps the length and the order; position by position the
id and text are kept, a task with id i has its completed flag inverted, any
other task is the same record; and when no task has id i the collection is
unchanged. -/
theorem toggleTaskCompletion_effect (s : State) (i : Int) :
    (toggleTaskCompletion i s).tasks.length = s.tasks.length
    ∧ (∀ k a, s.tasks.get? k = some a →
        ∃ b, (toggleTaskCompletion i s).tasks.get? k = some b
          ∧ b.id = a.id ∧ b.text = a.text
          ∧ (a.id = i → b.completed = !a.completed)
          ∧ (a.id ≠ i → b = a))
    ∧ ((∀ task ∈ s.tasks, task.id ≠ i) → (toggleTaskCompletion i s).tasks = s.tasks) := by
  have h := toggleTaskCompletion_tasks i s
  refine ⟨?_, ?_, ?_⟩
  · rw [h]; simp
  · intro k a hk
    rw [h]
    refine ⟨if a.id = i then { a with completed := !a.completed } else a, ?_, ?_⟩
    · simp [List.get?_eq_getElem?] at hk ⊢
      exact ⟨a, hk, rfl⟩
    · by_cases ha : a.id = i <;> simp [ha]
  · intro hno
    rw [h]
    conv_rhs => rw [← List.map_id s.tasks]
    apply List.map_congr_left
    intro a ha
    simp [hno a ha]

/-- Witness for C5: the scenario add X then toggle its id, read at position 0,
and a toggle of an id that is not there. -/
theorem toggleTaskCompletion_effect_witness :
    (∃ b, (toggleTaskCompletion 3 (run emptyPage [Event.submit 3 "X"])).tasks.get? 0 = some b
      ∧ b.id = 3 ∧ b.text = "X"
      ∧ ((3 : Int) = 3 → b.completed = !false)
      ∧ ((3 : Int) ≠ 3 → b = ⟨3, "X", false⟩))
    ∧ (toggleTaskCompletion 8 (run emptyPage [Event.submit 3 "X"])).tasks
      = (run emptyPage [Event.submit 3 "X"]).tasks :=
  ⟨(toggleTaskCompletion_effect (run emptyPage [Event.submit 3 "X"]) 3).2.1 0
      ⟨3, "X", false⟩ (by decide),
   (toggleTaskCompletion_effect (run emptyPage [Event.submit 3 "X"]) 8).2.2 (by decide)⟩

/-- C6: toggling the same id twice in a row gives back the collection it
started from, so the flag of the task with that id is restored and no other
flag has moved. -/
theorem toggleTaskCompletion_twice (s : State) (i : Int) :
    (toggleTaskCompletion i (toggleTaskCompletion i s)).tasks = s.tasks
    ∧ (toggleTaskCompletion i (toggleTaskCompletion i s)).tasks.map Task.completed
        = s.tasks.map Task.completed := by
  have h : (toggleTaskCompletion i (toggleTaskCompletion i s)).tasks = s.tasks := by
    rw [toggleTaskCompletion_tasks i (toggleTaskCompletion i s), toggleTaskCompletion_tasks i s,
      List.map_map]
    conv_rhs => rw [← List.map_id s.tasks]
    apply List.map_congr_left
    intro a _
    cases a with
    | mk aid atext acompleted =>
      by_cases ha : aid = i <;> simp [ha]
  exact ⟨h, by rw [h]⟩

/-! ### Identifier uniqueness -/

theorem toggleTaskCompletion_ids (i : Int) (s : State) :
    (toggleTaskCompletion i s).tasks.map Task.id = s.tasks.map Task.id := by
  rw [toggleTaskCompletion_tasks, List.map_map]
  apply List.map_congr_left
  intro a _
  by_cases ha : a.id = i <;> simp [ha]

theorem removeTask_ids_sublist (i : Int) (s : State) :
    List.Sublist ((removeTask i s).tasks.map Task.id) (s.tasks.map Task.id) := by
  rw [removeTask_tasks]
  exact (List.filter_sublist s.tasks).map Task.id

/-- Every event either leaves a sublist of the old ids, or is an accepted
submission and puts its clock reading in front of them. -/
theorem step_ids (s : State) (ev : Event) :
    List.Sublist ((step s ev).tasks.map Task.id) (s.tasks.map Task.id)
    ∨ ∃ now input, ev = Event.submit now input ∧ jsTrim input ≠ ""
        ∧ (step s ev).tasks.map Task.id = now :: s.tasks.map Task.id := by
  cases ev with
  | submit now input =>
    by_cases hb : jsTrim input = ""
    · left
      have := handleAddTask_tasks_of_blank now { s with inputValue := input } hb
      simp only [step]
      rw [this]
    · right
      refine ⟨now, input, rfl, hb, ?_⟩
      have := handleAddTask_tasks_of_valid now { s with inputValue := input } hb
      simp only [step]
      rw [this]
      rfl
  | toggle taskId =>
    left
    simp only [step]
    rw [toggleTaskCompletion_ids]
  | deleteClick taskId =>
    left
    simp only [step, deleteTask]
    split
    · exact List.Sublist.refl _
    · exact removeTask_ids_sublist taskId s
  | timeout k =>
    left
    simp only [step, fireTimer]
    split
    · rename_i t _
      cases t with
      | clearInputCue => exact List.Sublist.refl _
      | removeTask taskId =>
        exact removeTask_ids_sublist taskId { s with timers := s.timers.eraseIdx k }
    · exact List.Sublist.refl _

theorem run_ids_nodup (evs : List Event) (s : State)
    (hs : (s.tasks.map Task.id).Nodup)
    (hclock : (clockReadings evs).Nodup)
    (hfresh : ∀ i ∈ s.tasks.map Task.id, i ∉ clockReadings evs) :
    ((run s evs).tasks.map Task.id).Nodup := by
  induction evs generalizing s with
  | nil => simpa [run] using hs
  | cons ev evs ih =>
    have hrun : run s (ev :: evs) = run (step s ev) evs := rfl
    rw [hrun]
    rcases step_ids s ev with hsub | ⟨now, input, hev, hvalid, hids⟩
    · have hrest : List.Sublist (clockReadings evs) (clockReadings (ev :: evs)) := by
        cases ev with
        | submit now input =>
          simp only [clockReadings]
          split
          · exact List.Sublist.refl _
          · exact List.sublist_cons_self _ _
        | toggle taskId => exact List.Sublist.refl _
        | deleteClick taskId => exact List.Sublist.refl _
        | timeout k => exact List.Sublist.refl _
      apply ih
      · exact hs.sublist hsub
      · exact hclock.sublist hrest
      · intro i hi hmem
        exact hfresh i (hsub.subset hi) (hrest.subset hmem)
    · subst hev
      have hcr : clockReadings (Event.submit now input :: evs) = now :: clockReadings evs := by
        simp [clockReadings, hvalid]
      rw [hcr] at hclock hfresh
      rw [List.nodup_cons] at hclock
      apply ih
      · rw [hids, List.nodup_cons]
        refine ⟨?_, hs⟩
        intro hmem
        exact hfresh now hmem (List.mem_cons_self now _)
      · exact hclock.2
      · intro i hi hmem
        rw [hids, List.mem_cons] at hi
        rcases hi with rfl | hi
        · exact hclock.1 hmem
        · exact hfresh i hi (List.mem_cons_of_mem now hmem)

/-- C4, amended: when the clock readings taken by the accepted submissions are
pairwise distinct, every collection reached from an empty one by any sequence
of submissions, toggles, delete clicks and timer firings has pairwise distinct
ids; and one event keeps the ids distinct provided that, if it is an accepted
submission, its clock reading is not already the id of a task. -/
theorem ids_unique_of_distinct_clock (s0 : State) (evs : List Event) :
    (s0.tasks = [] → (clockReadings evs).Nodup → ((run s0 evs).tasks.map Task.id).Nodup)
    ∧ (∀ s ev, (s.tasks.map Task.id).Nodup →
        (∀ now input, ev = Event.submit now input → jsTrim input ≠ "" →
          now ∉ s.tasks.map Task.id) →
        ((step s ev).tasks.map Task.id).Nodup) := by
  constructor
  · intro h0 hclock
    apply run_ids_nodup evs s0 _ hclock
    · intro i hi
      rw [h0] at hi
      simp at hi
    · rw [h0]
      simp
  · intro s ev hs hfresh
    rcases step_ids s ev with hsub | ⟨now, input, hev, hvalid, hids⟩
    · exact hs.sublist hsub
    · rw [hids, List.nodup_cons]
      exact ⟨hfresh now input hev hvalid, hs⟩

/-- Witness for C4, amended: two submissions at readings 1 and 2, a toggle, a
delete click and its timer; and one accepted submission with a fresh reading. -/
theorem ids_unique_of_distinct_clock_witness :
    ((run emptyPage [Event.submit 1 "A", Event.submit 2 "B", Event.toggle 1,
        Event.deleteClick 2, Event.timeout 0]).tasks.map Task.id).Nodup
    ∧ ((step (run emptyPage [Event.submit 1 "A"]) (Event.submit 2 "B")).tasks.map Task.id).Nodup :=
  ⟨(ids_unique_of_distinct_clock emptyPage [Event.submit 1 "A", Event.submit 2 "B",
      Event.toggle 1, Event.deleteClick 2, Event.timeout 0]).1 (by decide) (by decide),
   (ids_unique_of_distinct_clock emptyPage []).2 (run emptyPage [Event.submit 1 "A"])
      (Event.submit 2 "B") (by decide)
      (fun now input hev _ => by
        have h2 : now = 2 := by
          injection hev with h1 _
          exact h1.symm
        rw [h2]
        decide)⟩

/-- C4 as written fails: Date.now() can give the same reading to two
submissions, and the two tasks then share the id 7. -/
theorem ids_unique_counterexample :
    ¬ ((run emptyPage [Event.submit 7 "a", Event.submit 7 "b"]).tasks.map Task.id).Nodup
    ∧ (run emptyPage [Event.submit 7 "a", Event.submit 7 "b"]).tasks
        = [⟨7, "b", false⟩, ⟨7, "a", false⟩] := by
  decide

/-! ### Derived view -/

theorem not_mem_classListRemove (cls : String) (cl : List String) :
    cls ∉ classListRemove cls cl := by
  simp [classListRemove, List.mem_filter]

theorem mem_classListAdd (cls : String) (cl : List String) :
    cls ∈ classListAdd cls cl := by
  unfold classListAdd
  split
  · assumption
  · simp

/-- C10: after updateEmptyState the empty-state message is displayed exactly
when the collection has length 0, and the task list is hidden exactly when the
message is displayed, so one and only one of the two is visible. -/
theorem updateEmptyState_indicator (s : State) :
    (shown (updateEmptyState s).emptyStateClasses ↔ s.tasks.length = 0)
    ∧ (¬ shown (updateEmptyState s).taskListClasses
        ↔ shown (updateEmptyState s).emptyStateClasses)
    ∧ (shown (updateEmptyState s).taskListClasses ↔ s.tasks.length ≠ 0)
    ∧ (updateEmptyState s).tasks = s.tasks := by
  have hrem := not_mem_classListRemove "hidden"
  have hadd := mem_classListAdd "hidden"
  unfold updateEmptyState shown
  by_cases h : s.tasks.length = 0
  · simp [h, hrem, hadd]
  · simp [h, hrem, hadd]

theorem pendingTasks_eq_countP (tasks : List Task) :
    pendingTasks tasks = tasks.countP (fun task => task.completed == false) := by
  unfold pendingTasks
  rw [List.countP_eq_length_filter]
  congr 2
  funext task
  cases task.completed <;> rfl

theorem plural_text_ne_singular (n : Nat) :
    Nat.repr n ++ " tasks remaining" ≠ "1 task remaining" := by
  intro h
  have hdata : (Nat.repr n).data ++ " tasks remaining".data = "1 task remaining".data := by
    rw [← String.data_append, h]
  have hlen := congrArg List.length hdata
  rw [List.length_append] at hlen
  have hnil : (Nat.repr n).data = [] := by
    apply List.eq_nil_of_length_eq_zero
    have h16 : " tasks remaining".data.length = 16 := by decide
    have h16b : "1 task remaining".data.length = 16 := by decide
    omega
  rw [hnil, List.nil_append] at hdata
  revert hdata
  decide

/-- C8: with n the number of tasks whose completed flag is false, updateTaskCount
writes into the count element the text 1 task remaining exactly when n = 1, and
otherwise the decimal numeral of n followed by tasks remaining; for n = 0 that
is 0 tasks remaining. -/
theorem updateTaskCount_text (s : State) (old : String)
    (hel : s.taskCountElement = some old) :
    ∃ txt, (updateTaskCount s).taskCountElement = some txt
      ∧ (txt = "1 task remaining"
          ↔ s.tasks.countP (fun task => task.completed == false) = 1)
      ∧ (s.tasks.countP (fun task => task.completed == false) ≠ 1 →
          txt = Nat.repr (s.tasks.countP (fun task => task.completed == false))
            ++ " tasks remaining")
      ∧ (s.tasks.countP (fun task => task.completed == false) = 0 →
          txt = "0 tasks remaining") := by
  refine ⟨taskCountText s.tasks, ?_, ?_, ?_, ?_⟩
  · simp [updateTaskCount, hel]
  · rw [← pendingTasks_eq_countP]
    unfold taskCountText
    by_cases h : pendingTasks s.tasks = 1
    · simp [h]
    · simp only [h, if_false, iff_false]
      exact plural_text_ne_singular _
  · rw [← pendingTasks_eq_countP]
    intro h
    simp [taskCountText, h]
  · rw [← pendingTasks_eq_countP]
    intro h
    simp [taskCountText, h]
    rfl

/-- Witness for C8: one pending task next to one completed task, then three
pending tasks. -/
theorem updateTaskCount_text_witness :
    (∃ txt, (updateTaskCount { emptyPage with
          tasks := [⟨2, "B", false⟩, ⟨1, "A", true⟩] }).taskCountElement = some txt
      ∧ (txt = "1 task remaining"
          ↔ [(⟨2, "B", false⟩ : Task), ⟨1, "A", true⟩].countP
              (fun task => task.completed == false) = 1)
      ∧ ([(⟨2, "B", false⟩ : Task), ⟨1, "A", true⟩].countP
              (fun task => task.completed == false) ≠ 1 →
          txt = Nat.repr ([(⟨2, "B", false⟩ : Task), ⟨1, "A", true⟩].countP
              (fun task => task.completed == false)) ++ " tasks remaining")
      ∧ ([(⟨2, "B", false⟩ : Task), ⟨1, "A", true⟩].countP
              (fun task => task.completed == false) = 0 →
          txt = "0 tasks remaining"))
    ∧ (updateTaskCount { emptyPage with
          tasks := [⟨3, "C", false⟩, ⟨2, "B", false⟩, ⟨1, "A", false⟩] }).taskCountElement
        = some "3 tasks remaining" :=
  ⟨updateTaskCount_text { emptyPage with tasks := [⟨2, "B", false⟩, ⟨1, "A", true⟩] }
      "0 tasks remaining" (by decide),
   by decide⟩

/-! ### Start-up load -/

/-- C7 fails on the code. With no stored value the start-up does fall back to the
empty collection. Stored text that is not JSON makes line 12 raise SyntaxError.
A stored empty object parses, is no task list, becomes the collection as it is,
and the initial render then raises TypeError. The stored number 0.5 does the
same. A stored array holding 0.5, no task list either, is kept as a non-empty
collection. A stored array holding null raises TypeError in the render. -/
theorem onDOMContentLoaded_stored_faults :
    onDOMContentLoaded Stored.absent = Except.ok (JVal.arr [])
    ∧ initTasks Stored.unparsable = Except.error JsFault.syntaxError
    ∧ onDOMContentLoaded Stored.unparsable = Except.error JsFault.syntaxError
    ∧ isTaskList (JVal.obj []) = false
    ∧ initTasks (Stored.value (JVal.obj [])) = Except.ok (JVal.obj [])
    ∧ onDOMContentLoaded (Stored.value (JVal.obj [])) = Except.error JsFault.typeError
    ∧ initTasks (Stored.value (JVal.num (JNum.finite (1 / 2))))
        = Except.ok (JVal.num (JNum.finite (1 / 2)))
    ∧ onDOMContentLoaded (Stored.value (JVal.num (JNum.finite (1 / 2))))
        = Except.error JsFault.typeError
    ∧ isTaskList (JVal.arr [JVal.num (JNum.finite (1 / 2))]) = false
    ∧ onDOMContentLoaded (Stored.value (JVal.arr [JVal.num (JNum.finite (1 / 2))]))
        = Except.ok (JVal.arr [JVal.num (JNum.finite (1 / 2))])
    ∧ onDOMContentLoaded (Stored.value (JVal.arr [JVal.null]))
        = Except.error JsFault.typeError := by
  have hhalf : JVal.truthy (JVal.num (JNum.finite (1 / 2))) = true := by
    simp [JVal.truthy]
  refine ⟨rfl, rfl, rfl, rfl, rfl, rfl, ?_, ?_, rfl, rfl, rfl⟩
  · simp only [initTasks, parseStored, hhalf, if_true]
  · simp only [onDOMContentLoaded, initTasks, parseStored, hhalf, if_true]

end TodoApp
